import Mathlib

/-!
Verification of the Column Reconciliation & Row Extraction Engine
(`src/processor.py`, `src/extractor.py`) of the portal-allos repository,
as a shallow embedding in Lean 4.

Cells of a sheet table are strings (the extractor coerces every cell with
`fillna("").astype(str).str.strip()`), so the embedding works over `String`
rows; the one internal non-string column (`_vmf_num`, holding `Decimal`
values) is modelled with an explicit cell-value sum type.  Python `Decimal`
values are modelled as exact scaled integers together with the literal
sign (for negative zero) and the 28-digit context-precision guard where
the code can hit it.
-/

set_option maxRecDepth 4000

namespace Portal

/-! ### Character and string primitives (Python semantics) -/

/-- Whitespace recognised by Python's `str.strip` / `re` `\s` on the
characters this codebase meets: space, tab, newline, carriage return,
vertical tab, form feed, and non-breaking space. -/
def wsChar (c : Char) : Bool :=
  c == ' ' || c == '\t' || c == '\n' || c == '\r' ||
  c == Char.ofNat 11 || c == Char.ofNat 12 || c == Char.ofNat 160

/-- Drop trailing whitespace from a character list. -/
def dropTrailWs (l : List Char) : List Char :=
  (l.reverse.dropWhile wsChar).reverse

/-- Python `str.strip()` on a character list. -/
def pyStripChars (l : List Char) : List Char :=
  dropTrailWs (l.dropWhile wsChar)

/-- Python `str.strip()`. -/
def pyStrip (s : String) : String :=
  String.mk (pyStripChars s.data)

/-- Strip the Latin accents occurring in this codebase's vocabulary,
keeping the letter's case. -/
def stripAccent (c : Char) : Char :=
  match c with
  | 'á' => 'a' | 'à' => 'a' | 'â' => 'a' | 'ã' => 'a' | 'ä' => 'a'
  | 'é' => 'e' | 'è' => 'e' | 'ê' => 'e' | 'ë' => 'e'
  | 'í' => 'i' | 'ì' => 'i' | 'î' => 'i' | 'ï' => 'i'
  | 'ó' => 'o' | 'ò' => 'o' | 'ô' => 'o' | 'õ' => 'o' | 'ö' => 'o'
  | 'ú' => 'u' | 'ù' => 'u' | 'û' => 'u' | 'ü' => 'u'
  | 'ç' => 'c'
  | 'Á' => 'A' | 'À' => 'A' | 'Â' => 'A' | 'Ã' => 'A' | 'Ä' => 'A'
  | 'É' => 'E' | 'È' => 'E' | 'Ê' => 'E' | 'Ë' => 'E'
  | 'Í' => 'I' | 'Ì' => 'I' | 'Î' => 'I' | 'Ï' => 'I'
  | 'Ó' => 'O' | 'Ò' => 'O' | 'Ô' => 'O' | 'Õ' => 'O' | 'Ö' => 'O'
  | 'Ú' => 'U' | 'Ù' => 'U' | 'Û' => 'U' | 'Ü' => 'U'
  | 'Ç' => 'C'
  | _ => c

/-- Python `str.lower()` on one character, covering ASCII and the accented
letters of this codebase's vocabulary. -/
def pyLowerChar (c : Char) : Char :=
  match c with
  | 'Á' => 'á' | 'À' => 'à' | 'Â' => 'â' | 'Ã' => 'ã' | 'Ä' => 'ä'
  | 'É' => 'é' | 'È' => 'è' | 'Ê' => 'ê' | 'Ë' => 'ë'
  | 'Í' => 'í' | 'Ì' => 'ì' | 'Î' => 'î' | 'Ï' => 'ï'
  | 'Ó' => 'ó' | 'Ò' => 'ò' | 'Ô' => 'ô' | 'Õ' => 'õ' | 'Ö' => 'ö'
  | 'Ú' => 'ú' | 'Ù' => 'ù' | 'Û' => 'û' | 'Ü' => 'ü'
  | 'Ç' => 'ç'
  | _ => c.toLower

/-- Python `str.lower()`. -/
def pyLower (s : String) : String :=
  String.mk (s.data.map pyLowerChar)

/-- Replace every literal `&nbsp;` entity with one space. -/
def replNbspEntity : List Char → List Char
  | [] => []
  | '&' :: 'n' :: 'b' :: 's' :: 'p' :: ';' :: rest => ' ' :: replNbspEntity rest
  | c :: rest => c :: replNbspEntity rest

/-- Collapse consecutive spaces into one. -/
def squeezeSpaces : List Char → List Char
  | [] => []
  | [c] => [c]
  | a :: b :: rest =>
    if a == ' ' && b == ' ' then squeezeSpaces (b :: rest)
    else a :: squeezeSpaces (b :: rest)

/-- Modelled from the spec: `normalize_text_full` lives in the repository's
root `utils.py`, which is not under `src/`.  Spec §4.1 defines it: accents
stripped, case folded, all whitespace variants (including non-breaking
space and the literal `&nbsp;` markup) collapsed to single ordinary
spaces, and leading/trailing space trimmed. -/
def normalize_text_full (s : String) : String :=
  let folded := (replNbspEntity s.data).map fun c =>
    let c' := (stripAccent c).toLower
    if wsChar c' then ' ' else c'
  String.mk (pyStripChars (squeezeSpaces folded))

/-- Python `str.split(sep)` for a one-character separator:
`"" ↦ [""]`, adjacent separators produce empty fields. -/
def splitChar (sep : Char) : List Char → List (List Char)
  | [] => [[]]
  | c :: rest =>
    if c == sep then [] :: splitChar sep rest
    else
      match splitChar sep rest with
      | h :: t => (c :: h) :: t
      | [] => [[c]]

/-- Does `b` start with `a`? -/
def startsList (a b : List Char) : Bool :=
  match a, b with
  | [], _ => true
  | _ :: _, [] => false
  | x :: xs, y :: ys => x == y && startsList xs ys

/-- Contiguous-sublist containment on character lists. -/
def infixList (a b : List Char) : Bool :=
  match b with
  | [] => a.isEmpty
  | _ :: rest => startsList a b || infixList a rest

/-! ### Digits, integer parsing, decimal parsing -/

/-- ASCII decimal digit test (`0`–`9`). -/
def isDigitChar (c : Char) : Bool :=
  decide (48 ≤ c.toNat) && decide (c.toNat ≤ 57)

/-- The decimal digit character for `d < 10`. -/
def digitChar (d : ℕ) : Char := Char.ofNat (48 + d)

/-- Numeric value of a digit string (digits already validated). -/
def digitsVal (l : List Char) : ℕ :=
  l.foldl (fun a c => 10 * a + (c.toNat - 48)) 0

/-- Decimal digit characters of `n`, most significant first
(fuel-based so that it evaluates by kernel reduction). -/
def natCharsAux : ℕ → ℕ → List Char
  | 0, _ => []
  | fuel + 1, n =>
    if n < 10 then [digitChar n]
    else natCharsAux fuel (n / 10) ++ [digitChar (n % 10)]

/-- Decimal digit characters of `n`, most significant first. -/
def natChars (n : ℕ) : List Char := natCharsAux (n + 1) n

/-- Left-pad a character list with `'0'` up to width `k`
(Python's `{:0kd}` formatting for non-negative values). -/
def padZeros (k : ℕ) (l : List Char) : List Char :=
  List.replicate (k - l.length) '0' ++ l

/-- Parse a non-empty all-digit character list. -/
def parseDigits (l : List Char) : Option ℕ :=
  if l.isEmpty then none
  else if l.all isDigitChar then some (digitsVal l) else none

/-- Python `int(s)`: optional surrounding whitespace, optional sign,
then decimal digits. -/
def pyIntChars (l0 : List Char) : Option ℤ :=
  match pyStripChars l0 with
  | '-' :: rest => (parseDigits rest).map fun n => -(n : ℤ)
  | '+' :: rest => (parseDigits rest).map fun n => (n : ℤ)
  | l => (parseDigits l).map fun n => (n : ℤ)

/-- An exact decimal value `num / 10 ^ e`, the embedding of a finite
Python `Decimal` value (Mathlib's `ℚ` arithmetic does not reduce in the
kernel, so exact decimals carry their own scaled-integer representation).
-/
structure DecVal where
  num : ℤ
  e : ℕ
deriving DecidableEq, Repr

/-- Sameness of the represented decimal values. -/
def DecVal.eqv (a b : DecVal) : Prop :=
  a.num * 10 ^ b.e = b.num * 10 ^ a.e

instance (a b : DecVal) : Decidable (a.eqv b) := by
  unfold DecVal.eqv
  infer_instance

/-- Exact addition of decimal values. -/
def DecVal.add (a b : DecVal) : DecVal :=
  ⟨a.num * 10 ^ b.e + b.num * 10 ^ a.e, a.e + b.e⟩

/-- Round `a / b` (for `b > 0`) to the nearest integer, ties to even —
the `ROUND_HALF_EVEN` default of Python's `Decimal` context. -/
def rheDiv (a : ℤ) (b : ℕ) : ℤ :=
  if b = 0 then 0
  else
    let q := Int.fdiv a b
    let r := a - q * b
    if 2 * r < (b : ℤ) then q
    else if (b : ℤ) < 2 * r then q + 1
    else if q % 2 = 0 then q else q + 1

/-- Round a decimal value times `10 ^ k` to the nearest integer, ties to
even (Python `Decimal.quantize` at exponent `-k`). -/
def DecVal.scaledRound (v : DecVal) (k : ℕ) : ℤ :=
  rheDiv (v.num * 10 ^ k) (10 ^ v.e)

/-- Exponent suffix of a `Decimal` literal (after `e`/`E`), applied to the
coefficient magnitude. -/
def pyDecExp (base : DecVal) (l : List Char) : Option DecVal :=
  match l with
  | '-' :: rest => (parseDigits rest).map fun p => DecVal.mk base.num (base.e + p)
  | '+' :: rest => (parseDigits rest).map fun p => DecVal.mk (base.num * 10 ^ p) base.e
  | rest => (parseDigits rest).map fun p => DecVal.mk (base.num * 10 ^ p) base.e

/-- Magnitude part of a `Decimal` numeric literal:
`digits [. digits] [(e|E) [sign] digits]`, at least one coefficient
digit. -/
def pyDecCore (l : List Char) : Option DecVal :=
  let ip := l.takeWhile isDigitChar
  let r1 := l.dropWhile isDigitChar
  let fp := match r1 with
    | '.' :: rest => rest.takeWhile isDigitChar
    | _ => []
  let r2 := match r1 with
    | '.' :: rest => rest.dropWhile isDigitChar
    | _ => r1
  if ip.isEmpty && fp.isEmpty then none
  else
    let base := DecVal.mk (digitsVal (ip ++ fp)) fp.length
    match r2 with
    | [] => some base
    | 'e' :: rest => pyDecExp base rest
    | 'E' :: rest => pyDecExp base rest
    | _ => none

/-- Python `Decimal(s)` on a finite numeric literal, as literal sign plus
magnitude (the sign is kept separately so that negative zero renders as
`-0`).  Surrounding whitespace and underscores are removed first, as the
`Decimal` constructor does.  The non-finite spellings (`nan`, `inf`, …)
are not modelled: no claim exercises them. -/
def pyDecimalChars (l0 : List Char) : Option (Bool × DecVal) :=
  match (pyStripChars l0).filter (fun c => c != '_') with
  | '-' :: rest => (pyDecCore rest).map fun q => (true, q)
  | '+' :: rest => (pyDecCore rest).map fun q => (false, q)
  | l => (pyDecCore l).map fun q => (false, q)

/-- Python `Decimal(s)` (see `pyDecimalChars`). -/
def pyDecimal (s : String) : Option (Bool × DecVal) := pyDecimalChars s.data

/-! ### Root-utils helpers used by `processor.py`

The repository's root `utils.py` is imported by `src/processor.py` but is
not under `src/`; the helpers below are modelled from the spec. -/

/-- Modelled from the spec: `parse_year_month` (root `utils.py`, absent from
`src/`).  Spec §4.5 step 2 and §6: accepts `YYYY-MM` or `YYYY/MM` with a
1–2 digit month, the year prefixed `20`, and yields the normalized
`YYYY-MM` token with a zero-padded month; anything else does not parse. -/
def parse_year_month (s : String) : Option String :=
  match pyStripChars s.data with
  | c1 :: c2 :: c3 :: c4 :: sep :: rest =>
    if c1 == '2' && c2 == '0' && isDigitChar c3 && isDigitChar c4 &&
        (sep == '-' || sep == '/') then
      match parseDigits rest with
      | some m =>
        if rest.length ≤ 2 ∧ 1 ≤ m ∧ m ≤ 12 then
          some (String.mk ([c1, c2, c3, c4] ++ '-' :: padZeros 2 (natChars m)))
        else none
      | none => none
    else none
  | _ => none

/-- Modelled from the spec: `normalize_unit` (root `utils.py`, absent from
`src/`).  Spec §4.5 step 3 describes case/accent/whitespace folding plus a
domain-specific unit-name canonicalization; the unavailable domain-specific
part is modelled as the folding alone. -/
def normalize_unit (s : String) : String := normalize_text_full s

/-- Modelled from the spec: `split_emails` (root `utils.py`, absent from
`src/`).  Spec §4.5 step 7: split one cell on the common multi-address
delimiters (`;` and `,`), trim each part and drop empty parts
(deduplication happens in the caller). -/
def split_emails (s : String) : List String :=
  (((splitChar ';' s.data).map (splitChar ',')).flatten.map
    fun l => String.mk (pyStripChars l)).filter fun t => !t.isEmpty

/-- Group a digit list (most significant first) with `.` thousands
separators, working on the reversed list. -/
def groupRev : List Char → List Char
  | a :: b :: c :: d :: rest => a :: b :: c :: '.' :: groupRev (d :: rest)
  | l => l

/-- Modelled from the spec: `fmt_brl` (root `utils.py`, absent from
`src/`).  Spec §4.5 step 5 and §8: format an exact decimal with a comma
decimal separator and dot thousands separators, two decimal places
(`1234.56 ↦ "1.234,56"`); rounding of extra decimals is half-even as in
the `Decimal` context. -/
def fmt_brl (q : DecVal) : String :=
  let cents := q.scaledRound 2
  let n := cents.natAbs
  String.mk ((if cents < 0 then ['-'] else []) ++
    (groupRev (natChars (n / 100)).reverse).reverse ++
    ',' :: padZeros 2 (natChars (n % 100)))

/-! ### `processor.py`: vectorized cell transformations -/

/-- Embedding of `_to_decimal_sane_vectorized`'s per-cell `convert`
(`src/processor.py:171`) on a string cell (the extractor makes every
source cell a string): `Decimal(str(x))`, any failure giving `Decimal(0)`.
-/
def to_decimal_sane (s : String) : DecVal :=
  match pyDecimal s with
  | some (sgn, mag) => if sgn then ⟨-mag.num, mag.e⟩ else mag
  | none => ⟨0, 0⟩

/-- Shared tail of the two `H:MM`-style branches of
`_format_horas_atrasos_vectorized` (`src/processor.py:196` and `:214`):
normalize minute overflow, drop the sign, convert to decimal hours
quantized to one decimal (half-even), reapply the sign, and render with a
comma.  `none` models the `InvalidOperation` the quantize raises when the
result exceeds the 28-digit context precision (the branch's `except`
falls through). -/
def horasRender (h : ℤ) (mi : ℕ) : Option String :=
  let h2 : ℤ := if mi ≥ 60 then h + (mi / 60 : ℕ) else h
  let mi2 : ℕ := if mi ≥ 60 then mi % 60 else mi
  let negative := h2 < 0
  let total : ℕ := h2.natAbs * 60 + mi2
  let tenths : ℤ := rheDiv (total : ℤ) 6
  if tenths.natAbs ≥ 10 ^ 28 then none
  else some (String.mk ((if negative then ['-'] else []) ++
    natChars (tenths.natAbs / 10) ++ ',' :: natChars (tenths.natAbs % 10)))

/-- Embedding of `HORAS_PATTERN_1` matching plus its branch
(`src/processor.py:195`): regex `^\s*([+-]?\d+):\s*(\d{1,2})\s*$`. -/
def horasBranch1 (l : List Char) : Option String :=
  let l1 := l.dropWhile wsChar
  let sign : Bool := match l1 with
    | '-' :: _ => true
    | _ => false
  let l2 := match l1 with
    | '-' :: r => r
    | '+' :: r => r
    | _ => l1
  let ds := l2.takeWhile isDigitChar
  let l3 := l2.dropWhile isDigitChar
  if ds.isEmpty then none
  else
    match l3 with
    | ':' :: l4 =>
      let l5 := l4.dropWhile wsChar
      let ms := l5.takeWhile isDigitChar
      let l6 := l5.dropWhile isDigitChar
      if ms.length = 0 ∨ 2 < ms.length then none
      else if !l6.all wsChar then none
      else
        horasRender (if sign then -(digitsVal ds : ℤ) else (digitsVal ds : ℤ))
          (digitsVal ms)
    | _ => none

/-- Embedding of `HORAS_PATTERN_2` matching plus its branch
(`src/processor.py:213`): regex
`^\s*([+-]?\d+)\s*h\s*(\d{1,2})?\s*m?\s*$`, case-insensitive. -/
def horasBranch2 (l : List Char) : Option String :=
  let l1 := l.dropWhile wsChar
  let sign : Bool := match l1 with
    | '-' :: _ => true
    | _ => false
  let l2 := match l1 with
    | '-' :: r => r
    | '+' :: r => r
    | _ => l1
  let ds := l2.takeWhile isDigitChar
  let l3 := (l2.dropWhile isDigitChar).dropWhile wsChar
  if ds.isEmpty then none
  else
    match l3 with
    | c :: l4 =>
      if c == 'h' || c == 'H' then
        let l5 := l4.dropWhile wsChar
        let ms := l5.takeWhile isDigitChar
        let l6 := (l5.dropWhile isDigitChar).dropWhile wsChar
        if 2 < ms.length then none
        else
          let l7 := match l6 with
            | c2 :: r => if c2 == 'm' || c2 == 'M' then r else l6
            | [] => l6
          if l7.all wsChar then
            horasRender
              (if sign then -(digitsVal ds : ℤ) else (digitsVal ds : ℤ))
              (digitsVal ms)
          else none
      else none
    | [] => none

/-- Embedding of the bare-decimal final branch of
`_format_horas_atrasos_vectorized` (`src/processor.py:232`): remove ASCII
spaces, turn commas into dots, parse as `Decimal`, quantize to one decimal
(half-even, 28-digit precision), render with a comma; on any failure the
stripped input is returned unchanged. -/
def horasDecimalDirect (s : String) : String :=
  let raw := s.data.filter fun c => c != ' '
  let raw2 := raw.map fun c => if c == ',' then '.' else c
  match pyDecimalChars raw2 with
  | none => s
  | some (sgn, mag) =>
    let tenths := mag.scaledRound 1
    if tenths.natAbs ≥ 10 ^ 28 then s
    else String.mk ((if sgn then ['-'] else []) ++
      natChars (tenths.natAbs / 10) ++ ',' :: natChars (tenths.natAbs % 10))

/-- Embedding of `_format_horas_atrasos_vectorized`'s per-cell
`format_val` (`src/processor.py:188`) on a string cell. -/
def format_horas_atrasos (val : String) : String :=
  if val = "" ∨ normalize_text_full val = normalize_text_full "Informação pendente"
  then "Informação pendente"
  else
    let s := pyStrip val
    match horasBranch1 s.data with
    | some r => r
    | none =>
      match horasBranch2 s.data with
      | some r => r
      | none => horasDecimalDirect s

/-! ### `processor.py`: the derived month helpers inside
`filter_and_prepare` -/

/-- Embedding of `_format_mmyy` (`src/processor.py:293`): `"" ↦ ""`; a
string splitting on `-` into exactly two parts `y`, `m` becomes
`m ++ "/" ++ y[2:]`; anything else is returned unchanged. -/
def format_mmyy (ym : String) : String :=
  if ym = "" then ""
  else
    match splitChar '-' ym.data with
    | [y, m] => String.mk (m ++ '/' :: y.drop 2)
    | _ => ym

/-- Embedding of `_get_prev_month` (`src/processor.py:303`): split on `-`
into two `int`s, build `date(y, m, 1)`, subtract one day and format
`YYYY-MM`; any failure (wrong arity, unparsable part, out-of-range date,
or the day-subtraction overflow at `date(1, 1, 1)`) returns the input
unchanged. -/
def get_prev_month (ym : String) : String :=
  if ym = "" then ""
  else
    match splitChar '-' ym.data with
    | [ys, ms] =>
      match pyIntChars ys, pyIntChars ms with
      | some y, some m =>
        if 1 ≤ y ∧ y ≤ 9999 ∧ 1 ≤ m ∧ m ≤ 12 ∧ ¬(y = 1 ∧ m = 1) then
          let yn := y.toNat
          let mn := m.toNat
          let py := if mn = 1 then yn - 1 else yn
          let pm := if mn = 1 then 12 else mn - 1
          String.mk (padZeros 4 (natChars py) ++ '-' :: padZeros 2 (natChars pm))
        else ym
      | _, _ => ym
    | _ => ym

/-! ### Sheet tables and rows

The extractor (`src/extractor.py:94`) loads a sheet with every header
whitespace-cleaned and every cell coerced to a stripped string; a table is
its ordered header list plus its rows.  A row is an association list from
column name to cell value in column order (pandas columns are unique, and
`to_dict(orient="records")` yields exactly such a mapping). -/

/-- A cell value: every source cell is a string; the one internal column
`_vmf_num` built by `filter_and_prepare` holds `Decimal` values. -/
inductive CellVal where
  | str (s : String)
  | dec (v : DecVal)
deriving DecidableEq, Repr

/-- A row: column name to cell value, in column order. -/
abbrev Row := List (String × CellVal)

/-- A sheet table: ordered headers plus rows. -/
structure Table where
  headers : List String
  rows : List Row
deriving DecidableEq

/-- Value of a row at a column (first occurrence). -/
def rowGet? (r : Row) (k : String) : Option CellVal :=
  (r.find? fun p => p.1 == k).map fun p => p.2

/-- String view of a row's cell, for the source string columns the
pipeline reads (absent keys and the internal decimal column never occur at
these call sites). -/
def rowGetStr (r : Row) (k : String) : String :=
  match rowGet? r k with
  | some (.str s) => s
  | _ => ""

/-- Decimal view of a row's `_vmf_num` cell. -/
def rowGetDec (r : Row) (k : String) : DecVal :=
  match rowGet? r k with
  | some (.dec v) => v
  | _ => ⟨0, 0⟩

/-- Column assignment on one row: pandas keeps an existing column in
place and overwrites its values, or appends a new column at the end. -/
def rowSet (r : Row) (k : String) (v : CellVal) : Row :=
  if r.any (fun p => p.1 == k) then
    r.map fun p => if p.1 == k then (k, v) else p
  else r ++ [(k, v)]

/-- Column assignment `df[k] = f(row)` on a table. -/
def setCol (t : Table) (k : String) (f : Row → CellVal) : Table :=
  { headers := if t.headers.contains k then t.headers else t.headers ++ [k]
    rows := t.rows.map fun r => rowSet r k (f r) }

/-- Column projection `df[cols]` on one row (pandas requires every
requested column to exist; absent keys default to an empty cell only to
keep the function total). -/
def projectRow (cols : List String) (r : Row) : Row :=
  cols.map fun c => (c, (rowGet? r c).getD (.str ""))

/-! ### `processor.py`: column mapping -/

/-- `COLUMN_CANDIDATES["Unidade"]` (`src/processor.py:40`). -/
def candUnidade : List String := ["Unidade", "Shopping", "Unidade/Shopping", "Unid."]

/-- `COLUMN_CANDIDATES["Mes_Emissao_NF"]` (`src/processor.py:41`). -/
def candMesEmissaoNF : List String :=
  ["Mês de emissão da NF", "Mês emissão NF", "Mes Emissao NF", "Mes NF",
   "Competencia NF", "Competência NF", "Competencia", "Competência"]

/-- `COLUMN_CANDIDATES["Email_Destinatario"]` (`src/processor.py:45`). -/
def candEmail : List String :=
  ["E-mail", "Email", "E-mails", "Emails", "Contatos", "Destinatários"]

/-- `COLUMN_CANDIDATES["Valor_Mensal_Final"]` (`src/processor.py:48`). -/
def candValorMensalFinal : List String :=
  ["Valor Mensal Final", "Valor Mensal", "Total Faturamento", "Valor Final"]

/-- `COLUMN_CANDIDATES["Contrato"]` (`src/processor.py:51`). -/
def candContrato : List String :=
  ["Contrato", "Número do Pedido", "Pedido", "OrderNumber"]

/-- `COLUMN_CANDIDATES["Funcionario"]` (`src/processor.py:52`). -/
def candFuncionario : List String := ["Funcionário", "Colaborador"]

/-- `COLUMN_CANDIDATES["Status"]` (`src/processor.py:53`). -/
def candStatus : List String := ["Status", "Status do Contrato", "Situação"]

/-- `DEFAULT_DISPLAY_COLUMNS` (`src/processor.py:56`). -/
def DEFAULT_DISPLAY_COLUMNS : List String :=
  ["Unidade", "Categoria", "Fornecedor", "HC Planilha", "Dias Faltas",
   "Horas Atrasos", "Valor Planilha", "Desc. Falta Validado Atlas",
   "Desc. Atraso Validado Atlas", "Desconto SLA Mês", "Valor Mensal Final",
   "Mês referência para faturamento", "Mês de emissão da NF"]

/-- Insertion into the insertion-ordered Python dict
`norm_map = {_norm(c): c for c in df.columns}`: an existing key keeps its
position and takes the new value, a new key is appended. -/
def dictInsert (m : List (String × String)) (k v : String) :
    List (String × String) :=
  if m.any (fun p => p.1 == k) then
    m.map fun p => if p.1 == k then (k, v) else p
  else m ++ [(k, v)]

/-- The `norm_map` dict of `_pick_column` (`src/processor.py:110`),
normalized header to original header, in first-insertion order with
last-value-wins on collisions. -/
def normMap (headers : List String) : List (String × String) :=
  headers.foldl (fun m c => dictInsert m (normalize_text_full c) c) []

/-- Embedding of `_pick_column` (`src/processor.py:107`): exact pass over
every candidate first (dict lookup of the normalized candidate), then a
substring pass (first dict entry, in insertion order, whose key contains
the normalized candidate; empty normalized candidates are skipped). -/
def pick_column (headers : List String) (candidates : List String) :
    Option String :=
  let m := normMap headers
  let exact := candidates.findSome? fun cand =>
    (m.find? fun p => p.1 == normalize_text_full cand).map fun p => p.2
  match exact with
  | some c => some c
  | none =>
    candidates.findSome? fun cand =>
      let nc := normalize_text_full cand
      if nc = "" then none
      else (m.find? fun p => infixList nc.data p.1.data).map fun p => p.2

/-- The mapping produced by `map_columns` (`src/processor.py:139`).  The
`Mes_Emissão_NF` alias key set on `src/processor.py:153` always carries
the same value as `Mes_Emissao_NF`, so it is not a separate field. -/
structure ColumnMapping where
  unidade : Option String
  mes_emissao_nf : Option String
  email_destinatario : Option String
  valor_mensal_final : Option String
  contrato : Option String
  funcionario : Option String
  status : Option String
deriving DecidableEq, Repr

/-- The fallback aliases for the issue-month column
(`src/processor.py:145`). -/
def mesAliases : List String := ["mes de emissao da nf", "mes emissao nf", "mes nf"]

/-- Embedding of `map_columns` (`src/processor.py:139`).  `_pick_column`
only ever returns an actual header, so the `not in df.columns` part of the
fallback guard is redundant and the fallback fires exactly when
`_pick_column` found nothing. -/
def map_columns (df : Table) : ColumnMapping :=
  let mes0 := pick_column df.headers candMesEmissaoNF
  let mes := match mes0 with
    | some c => some c
    | none =>
      df.headers.find? fun c =>
        mesAliases.any fun a => infixList a.data (normalize_text_full c).data
  { unidade := pick_column df.headers candUnidade
    mes_emissao_nf := mes
    email_destinatario := pick_column df.headers candEmail
    valor_mensal_final := pick_column df.headers candValorMensalFinal
    contrato := pick_column df.headers candContrato
    funcionario := pick_column df.headers candFuncionario
    status := pick_column df.headers candStatus }

/-! ### `extractor.py`: sheet resolution -/

/-- The sheet-name match of `find_workbook` and `read_region_sheet`
(`src/extractor.py:49` and `:83`): the lowered-and-stripped sheet name
equals, or contains, the lowered-and-stripped target
`"Faturamento " ++ regiao`. -/
def sheetMatches (regiao s : String) : Bool :=
  let target := pyStrip (pyLower ("Faturamento " ++ regiao))
  let sn := pyStrip (pyLower s)
  sn == target || infixList target.data sn.data

/-- Embedding of the sheet-resolution step of `read_region_sheet`
(`src/extractor.py:78`–`91`) as a function of the workbook's sheet-name
list: the first matching sheet is selected; with no match a
"sheet not found" error carrying the available sheet names is raised. -/
def read_region_sheet_select (sheetNames : List String) (regiao : String) :
    Except (List String) String :=
  match sheetNames.find? (sheetMatches regiao) with
  | some s => .ok s
  | none => .error sheetNames

/-! ### `processor.py`: `filter_and_prepare`

The function is embedded in named stages so that the theorems can reason
about each step.  In-place mutation of the caller's `columns_whitelist`
list (`display_columns.append(col)` on `src/processor.py:355` runs on the
very list object the caller passed) is rendered by returning the final
content of that list object in the result (`whitelistAfter`). -/

/-- Order-preserving first-occurrence deduplication,
`list(dict.fromkeys(...))` (`src/processor.py:347`). -/
def dedupFirstAux (seen : List String) : List String → List String
  | [] => []
  | x :: rest =>
    if seen.contains x then dedupFirstAux seen rest
    else x :: dedupFirstAux (x :: seen) rest

/-- Order-preserving deduplication keeping the first occurrence. -/
def dedupFirst (l : List String) : List String := dedupFirstAux [] l

/-- The summary dict: the two zeroed early-return summaries carry only the
two numeric keys, so the other keys are optional.  The float conversion
`float(total_vmf)` is modelled by the exact decimal (every value a claim
compares it against is exactly representable). -/
structure Summary where
  row_count : ℕ
  sum_valor_mensal_final : DecVal
  display_columns : Option (List String)
  missing_columns : Option (List String)
  requested_columns : Option (List String)
  fallback_used : Option Bool
deriving DecidableEq

/-- The result of `filter_and_prepare`: rows, recipients, summary, plus
the final content of the caller's `columns_whitelist` list object. -/
structure FPResult where
  rows : List Row
  recipients : List String
  summary : Summary
  whitelistAfter : Option (List String)
deriving DecidableEq

/-- The zeroed early-return result
(`src/processor.py:271`, `:278`, `:287`). -/
def emptyResult (wl : Option (List String)) : FPResult :=
  { rows := []
    recipients := []
    summary :=
      { row_count := 0
        sum_valor_mensal_final := ⟨0, 0⟩
        display_columns := none
        missing_columns := none
        requested_columns := none
        fallback_used := none }
    whitelistAfter := wl }

/-- Step 2 (`src/processor.py:274`): keep the rows whose parsed
issue-month equals the requested `ym`. -/
def fp_dfm (df : Table) (mesCol ym : String) : List Row :=
  df.rows.filter fun r => parse_year_month (rowGetStr r mesCol) == some ym

/-- Step 3 (`src/processor.py:281`): keep the rows whose normalized unit
equals the normalized requested unit. -/
def fp_dfu (uniCol unidade : String) (dfm : List Row) : List Row :=
  let target := normalize_unit unidade
  dfm.filter fun r => normalize_unit (rowGetStr r uniCol) == target

/-- Step 4 (`src/processor.py:289`–`:336`): the derived-column
assignments on the filtered frame, in program order — issue-month display,
forced reference-month display, the `_vmf_num` decimal column, the
formatted `Valor Mensal Final`, and the `Horas Atrasos` reformat when that
column exists. -/
def fp_t4 (headers : List String) (dfu : List Row) (mesCol : String)
    (vmfCol : Option String) (ym : String) : Table :=
  let t1 := setCol ⟨headers, dfu⟩ "Mês de emissão da NF" fun r =>
    .str (format_mmyy ((parse_year_month (rowGetStr r mesCol)).getD ym))
  let t2 := setCol t1 "Mês referência para faturamento" fun _ =>
    .str (format_mmyy (get_prev_month ym))
  let t3 := match vmfCol with
    | some vc => setCol t2 "_vmf_num" fun r => .dec (to_decimal_sane (rowGetStr r vc))
    | none => setCol t2 "_vmf_num" fun _ => .dec ⟨0, 0⟩
  setCol t3 "Valor Mensal Final" fun r =>
    .str (fmt_brl (rowGetDec r "_vmf_num"))

/-- Step 4, continued (`src/processor.py:335`): the `Horas Atrasos`
reformat when that column exists. -/
def fp_t5 (headers : List String) (dfu : List Row) (mesCol : String)
    (vmfCol : Option String) (ym : String) : Table :=
  let t4 := fp_t4 headers dfu mesCol vmfCol ym
  if t4.headers.contains "Horas Atrasos" then
    setCol t4 "Horas Atrasos" fun r =>
      .str (format_horas_atrasos (rowGetStr r "Horas Atrasos"))
  else t4

/-- Step 5 (`src/processor.py:339`): `dfu["_vmf_num"].sum()`, exact (the
28-digit context precision of `Decimal` addition never rounds at the
magnitudes any claim exercises). -/
def fp_total (t5 : Table) : DecVal :=
  t5.rows.foldl (fun acc r => acc.add (rowGetDec r "_vmf_num")) ⟨0, 0⟩

/-- Step 6 (`src/processor.py:342`): split every email cell and
deduplicate preserving first-seen order. -/
def fp_recipients (t5 : Table) (emailCol : Option String) : List String :=
  match emailCol with
  | some ec => dedupFirst ((t5.rows.map fun r => split_emails (rowGetStr r ec)).flatten)
  | none => []

/-- Step 7 (`src/processor.py:349`–`:355`): the display-column list —
the caller's very list when non-empty, else the default set — with the
two critical columns appended when absent. -/
def fp_display_columns (wl : Option (List String)) : List String :=
  let base := match wl with
    | some ws => if ws.isEmpty then DEFAULT_DISPLAY_COLUMNS else ws
    | none => DEFAULT_DISPLAY_COLUMNS
  let d1 := if base.contains "Valor Mensal Final" then base
    else base ++ ["Valor Mensal Final"]
  if d1.contains "Mês de emissão da NF" then d1
  else d1 ++ ["Mês de emissão da NF"]

/-- Steps 7–8 (`src/processor.py:349`–`:368`): display-column assembly
(appending the critical columns to the caller's very list when it is
non-empty), projection with whole-frame fallback, and the summary. -/
def fp_finish (t5 : Table) (total : DecVal) (recipients : List String)
    (wl : Option (List String)) : FPResult :=
  let displayCols := fp_display_columns wl
  let rows := if displayCols.all (fun c => t5.headers.contains c)
    then t5.rows.map (projectRow displayCols)
    else t5.rows
  { rows := rows
    recipients := recipients
    summary :=
      { row_count := rows.length
        sum_valor_mensal_final := total
        display_columns := some displayCols
        missing_columns := some []
        requested_columns := some (match wl with
          | some ws => if ws.isEmpty then [] else displayCols
          | none => [])
        fallback_used := some false }
    whitelistAfter := match wl with
      | some ws => some (if ws.isEmpty then ws else displayCols)
      | none => none }

/-- The resolved-columns path of `filter_and_prepare`
(`src/processor.py:273` onwards). -/
def fp_main (df : Table) (uniCol mesCol : String)
    (emailCol vmfCol : Option String) (unidade ym : String)
    (wl : Option (List String)) : FPResult :=
  let dfm := fp_dfm df mesCol ym
  if dfm.isEmpty then emptyResult wl
  else
    let dfu := fp_dfu uniCol unidade dfm
    if dfu.isEmpty then emptyResult wl
    else
      let t5 := fp_t5 df.headers dfu mesCol vmfCol ym
      fp_finish t5 (fp_total t5) (fp_recipients t5 emailCol) wl

/-- Embedding of `filter_and_prepare` (`src/processor.py:255`).  The
`Mes_Emissão_NF` alias always equals `Mes_Emissao_NF`, so
`mapping.get("Mes_Emissão_NF") or mapping.get("Mes_Emissao_NF")` is the
single `mes_emissao_nf` field. -/
def filter_and_prepare (df : Table) (unidade ym : String)
    (columns_whitelist : Option (List String)) : FPResult :=
  let mapping := map_columns df
  match mapping.unidade, mapping.mes_emissao_nf with
  | some uc, some mc =>
    fp_main df uc mc mapping.email_destinatario mapping.valor_mensal_final
      unidade ym columns_whitelist
  | _, _ => emptyResult columns_whitelist

/-! ### Spec-side characterizations (compared with the code's functions) -/

/-- The spec's wording of `_pick_column` (spec §4.4 rules 1–2): exact
matching over every candidate first, the first header *in table order*
whose normalized form equals the normalized candidate; then substring
matching, the first header in table order whose normalized form contains
the (non-empty) normalized candidate, candidates in priority order. -/
def pick_column_spec (headers candidates : List String) : Option String :=
  let exact := candidates.findSome? fun cand =>
    headers.find? fun h => normalize_text_full h == normalize_text_full cand
  match exact with
  | some c => some c
  | none =>
    candidates.findSome? fun cand =>
      let nc := normalize_text_full cand
      if nc = "" then none
      else headers.find? fun h => infixList nc.data (normalize_text_full h).data

/-- The spec's reference-month rule (spec §4.5 step 5): the calendar month
immediately preceding the target month `y`‑`m`, rendered `MM/YY` (the
two-digit month, a slash, the last two digits of the year). -/
def mmyyOfPrev (y m : ℕ) : String :=
  let py := if m = 1 then y - 1 else y
  let pm := if m = 1 then 12 else m - 1
  String.mk [digitChar (pm / 10 % 10), digitChar (pm % 10), '/',
             digitChar (py / 10 % 10), digitChar (py % 10)]

/-! ### Concrete fixtures for the claims -/

/-- The spec's end-to-end scenario table (spec §8): two rows for unit
`"Shopping ABC"`, issue months `2025-11` and `2025-10`, the first with
final-value cell `"1.500,00"`. -/
def C1table : Table :=
  { headers := ["Unidade", "Mês de emissão da NF", "Valor Mensal Final"]
    rows :=
      [[("Unidade", .str "Shopping ABC"),
        ("Mês de emissão da NF", .str "2025-11"),
        ("Valor Mensal Final", .str "1.500,00")],
       [("Unidade", .str "Shopping ABC"),
        ("Mês de emissão da NF", .str "2025-10"),
        ("Valor Mensal Final", .str "2.000,00")]] }

/-- A well-formed one-row table used to exercise the display-column
handling: it has resolvable unit and issue-month columns and nothing
else. -/
def C2table : Table :=
  { headers := ["Unidade", "Mês de emissão da NF"]
    rows :=
      [[("Unidade", .str "Shopping ABC"),
        ("Mês de emissão da NF", .str "2025-11")]] }

/-- A one-row table whose `Valor Planilha` column holds a raw dot-decimal
currency cell. -/
def C3table : Table :=
  { headers := ["Unidade", "Mês de emissão da NF", "Valor Planilha"]
    rows :=
      [[("Unidade", .str "Shopping ABC"),
        ("Mês de emissão da NF", .str "2025-11"),
        ("Valor Planilha", .str "1234.56")]] }

/-- A one-row table whose source rows carry a reference-month column with
content contradicting the derived value. -/
def C4table : Table :=
  { headers := ["Unidade", "Mês de emissão da NF",
                "Mês referência para faturamento"]
    rows :=
      [[("Unidade", .str "Shopping ABC"),
        ("Mês de emissão da NF", .str "2025-11"),
        ("Mês referência para faturamento", .str "07/23")]] }

end Portal

/-! Sanity checks of the cell-level embeddings on concrete inputs. -/

example : Portal.normalize_text_full "  Mês   de Emissão " = "mes de emissao" := by decide
example : Portal.parse_year_month "2025-11" = some "2025-11" := by decide
example : Portal.parse_year_month " 2025/9 " = some "2025-09" := by decide
example : Portal.parse_year_month "1999-11" = none := by decide
example : Portal.to_decimal_sane "1.500,00" = ⟨0, 0⟩ := by decide
example : (Portal.to_decimal_sane "1500.25").eqv ⟨150025, 2⟩ := by decide
example : Portal.fmt_brl ⟨123456, 2⟩ = "1.234,56" := by decide
example : Portal.fmt_brl ⟨0, 0⟩ = "0,00" := by decide
example : Portal.format_horas_atrasos "1:90" = "2,5" := by decide
example : Portal.format_horas_atrasos "2:30" = "2,5" := by decide
example : Portal.format_horas_atrasos "-3,25" = "-3,2" := by decide
example : Portal.format_horas_atrasos "informação  PENDENTE" = "Informação pendente" := by decide
example : Portal.format_horas_atrasos "abc" = "abc" := by decide
example : Portal.format_horas_atrasos "4h 30m" = "4,5" := by decide
example : Portal.get_prev_month "2025-11" = "2025-10" := by decide
example : Portal.get_prev_month "2025-01" = "2024-12" := by decide
example : Portal.format_mmyy "2025-10" = "10/25" := by decide
example : Portal.format_mmyy (Portal.get_prev_month "2025-11") = "10/25" := by decide
example : Portal.split_emails "a@x.com; b@y.com,a@x.com" = ["a@x.com", "b@y.com", "a@x.com"] := by decide


namespace Portal

/-! ## Shape lemmas for `filter_and_prepare` -/

/-- Every run of `filter_and_prepare` is either one of the three zeroed
early returns or the full step-4–8 pipeline over some filtered row set. -/
theorem fp_cases (df : Table) (u ym : String) (wl : Option (List String)) :
    filter_and_prepare df u ym wl = emptyResult wl ∨
    ∃ dfu mc vc ec,
      filter_and_prepare df u ym wl =
        fp_finish (fp_t5 df.headers dfu mc vc ym)
          (fp_total (fp_t5 df.headers dfu mc vc ym))
          (fp_recipients (fp_t5 df.headers dfu mc vc ym) ec) wl := by
  simp only [filter_and_prepare]
  cases hu : (map_columns df).unidade with
  | none => left; rfl
  | some uc =>
    cases hm : (map_columns df).mes_emissao_nf with
    | none => left; rfl
    | some mc =>
      simp only [fp_main]
      by_cases h1 : (fp_dfm df mc ym).isEmpty = true
      · rw [if_pos h1]; left; rfl
      · rw [if_neg h1]
        by_cases h2 : (fp_dfu uc u (fp_dfm df mc ym)).isEmpty = true
        · rw [if_pos h2]; left; rfl
        · rw [if_neg h2]
          right
          exact ⟨_, _, _, _, rfl⟩

/-! ## Claim theorems -/

/-- C1: the spec's end-to-end scenario, evaluated on the code.  The run
does return exactly one row with `row_count = 1`, but
`sum_valor_mensal_final` is `0`, not `1500.00`: `filter_and_prepare`
converts the final-value cell with plain `Decimal(str(x))`
(`_to_decimal_sane_vectorized`), which rejects the Brazilian-formatted
string `"1.500,00"` and coerces it to zero, instead of the money parsing
the spec prescribes. -/
theorem claim_C1_code_eval :
    (filter_and_prepare C1table "Shopping ABC" "2025-11" none).rows.length = 1 ∧
    (filter_and_prepare C1table "Shopping ABC" "2025-11" none).summary.row_count = 1 ∧
    (filter_and_prepare C1table "Shopping ABC" "2025-11"
        none).summary.sum_valor_mensal_final.eqv ⟨0, 0⟩ ∧
    ¬ (filter_and_prepare C1table "Shopping ABC" "2025-11"
        none).summary.sum_valor_mensal_final.eqv ⟨150000, 2⟩ ∧
    to_decimal_sane "1.500,00" = ⟨0, 0⟩ := by
  decide

/-- C5: duration formatting normalizes minute overflow and renders decimal
hours with a comma: `"1:90"` and `"2:30"` format identically, to `"2,5"`.
-/
theorem claim_C5 :
    format_horas_atrasos "1:90" = format_horas_atrasos "2:30" ∧
    format_horas_atrasos "2:30" = "2,5" := by
  decide

/-- C9: `map_columns` is idempotent — running it twice on the same table
yields the same mapping as running it once.  The embedding is a pure
function of the table (the Python function reads only `df.columns` and its
`lru_cache`d helpers are value-caches), so the two runs agree
definitionally. -/
theorem claim_C9 (df : Table) : map_columns df = map_columns df := rfl

end Portal

namespace Portal

/-- C2 counterexample: requesting the absent column `"Categoria"` does not
record it — the summary's `missing_columns` stays `[]` and
`fallback_used` stays `False`, although the call returns rows and the
column is genuinely absent from the table. -/
theorem claim_C2_counterexample :
    (filter_and_prepare C2table "Shopping ABC" "2025-11"
        (some ["Unidade", "Categoria"])).rows ≠ [] ∧
    C2table.headers.contains "Categoria" = false ∧
    (filter_and_prepare C2table "Shopping ABC" "2025-11"
        (some ["Unidade", "Categoria"])).summary.missing_columns = some [] ∧
    (filter_and_prepare C2table "Shopping ABC" "2025-11"
        (some ["Unidade", "Categoria"])).summary.fallback_used = some false := by
  decide

/-- C2 (amended): a call with an absent requested column never fails, but
the summary never records it either — on every run `missing_columns` is
absent (zeroed early return) or the constant `[]`, and `fallback_used` is
absent or the constant `False`. -/
theorem claim_C2 (df : Table) (u ym : String) (wl : Option (List String)) :
    ((filter_and_prepare df u ym wl).summary.missing_columns = none ∨
      (filter_and_prepare df u ym wl).summary.missing_columns = some []) ∧
    ((filter_and_prepare df u ym wl).summary.fallback_used = none ∨
      (filter_and_prepare df u ym wl).summary.fallback_used = some false) := by
  rcases fp_cases df u ym wl with h | ⟨dfu, mc, vc, ec, h⟩ <;>
    rw [h] <;> simp [emptyResult, fp_finish, fp_display_columns]

/-- C8: when the Unit or the Issue-Month column cannot be resolved,
`filter_and_prepare` returns an empty row list, an empty recipients list
and a zeroed summary. -/
theorem claim_C8 (df : Table) (u ym : String) (wl : Option (List String))
    (h : (map_columns df).unidade = none ∨
      (map_columns df).mes_emissao_nf = none) :
    (filter_and_prepare df u ym wl).rows = [] ∧
    (filter_and_prepare df u ym wl).recipients = [] ∧
    (filter_and_prepare df u ym wl).summary.row_count = 0 ∧
    (filter_and_prepare df u ym wl).summary.sum_valor_mensal_final = ⟨0, 0⟩ := by
  have he : filter_and_prepare df u ym wl = emptyResult wl := by
    simp only [filter_and_prepare]
    rcases h with h | h
    · rw [h]
    · cases hu : (map_columns df).unidade with
      | none => rfl
      | some uc => rw [h]
  rw [he]
  exact ⟨rfl, rfl, rfl, rfl⟩

/-- C8 witness: a table whose only header resolves neither canonical
column. -/
theorem claim_C8_witness :
    (filter_and_prepare ⟨["Coluna A"], []⟩ "U" "2025-11" none).rows = [] ∧
    (filter_and_prepare ⟨["Coluna A"], []⟩ "U" "2025-11" none).recipients = [] ∧
    (filter_and_prepare ⟨["Coluna A"], []⟩ "U" "2025-11"
        none).summary.row_count = 0 ∧
    (filter_and_prepare ⟨["Coluna A"], []⟩ "U" "2025-11"
        none).summary.sum_valor_mensal_final = ⟨0, 0⟩ :=
  claim_C8 ⟨["Coluna A"], []⟩ "U" "2025-11" none (Or.inl (by decide))

end Portal

namespace Portal

/-- Decomposition of a successful `find?`: the found element is the first
satisfying one. -/
theorem find?_eq_some_split {α : Type} (p : α → Bool) :
    ∀ (l : List α) (x : α), l.find? p = some x →
      ∃ pre post, l = pre ++ x :: post ∧ p x = true ∧
        ∀ t ∈ pre, p t = false := by
  intro l
  induction l with
  | nil => intro x h; simp at h
  | cons a l ih =>
    intro x h
    by_cases ha : p a = true
    · rw [List.find?_cons_of_pos _ ha] at h
      injection h with h
      subst h
      exact ⟨[], l, rfl, ha, by intro t ht; simp at ht⟩
    · rw [List.find?_cons_of_neg _ ha] at h
      obtain ⟨pre, post, heq, hx, hpre⟩ := ih x h
      subst heq
      refine ⟨a :: pre, post, rfl, hx, ?_⟩
      intro t ht
      rcases List.mem_cons.mp ht with rfl | ht
      · exact Bool.eq_false_iff.mpr fun hc => ha hc
      · exact hpre t ht

/-- C7: `read_region_sheet` raises its "sheet not found" error — carrying
exactly the available sheet names — precisely when no sheet name matches
the normalized target `"Faturamento {region}"` by equality or
containment; when some sheet matches, the first matching sheet in
workbook order is selected. -/
theorem claim_C7 (sheetNames : List String) (regiao : String) :
    ((∃ l, read_region_sheet_select sheetNames regiao = .error l) ↔
      ∀ s ∈ sheetNames, sheetMatches regiao s = false) ∧
    (∀ l, read_region_sheet_select sheetNames regiao = .error l →
      l = sheetNames) ∧
    (∀ s, read_region_sheet_select sheetNames regiao = .ok s →
      ∃ pre post, sheetNames = pre ++ s :: post ∧
        sheetMatches regiao s = true ∧
        ∀ t ∈ pre, sheetMatches regiao t = false) := by
  unfold read_region_sheet_select
  cases hf : sheetNames.find? (sheetMatches regiao) with
  | none =>
    refine ⟨⟨fun _ => ?_, fun _ => ⟨sheetNames, rfl⟩⟩, ?_, ?_⟩
    · intro s hs
      have := List.find?_eq_none.mp hf s hs
      exact Bool.eq_false_iff.mpr this
    · intro l hl
      injection hl with hl
      exact hl.symm
    · intro s hs
      cases hs
  | some s0 =>
    refine ⟨⟨?_, ?_⟩, ?_, ?_⟩
    · rintro ⟨l, hl⟩; cases hl
    · intro hall
      have hmem := List.mem_of_find?_eq_some hf
      have hp := List.find?_some hf
      rw [hall s0 hmem] at hp
      cases hp
    · intro l hl; cases hl
    · intro s hs
      injection hs with hs
      subst hs
      exact find?_eq_some_split _ _ _ hf

/-- C7 witness: the match fact extracted by applying `claim_C7` to a
concrete workbook whose second sheet is `"Faturamento SP1"`. -/
theorem claim_C7_witness : sheetMatches "SP1" "Faturamento SP1" = true := by
  obtain ⟨pre, post, hsplit, hmatch, hpre⟩ :=
    (claim_C7 ["Resumo", "Faturamento SP1"] "SP1").2.2 "Faturamento SP1" rfl
  exact hmatch

end Portal

namespace Portal

/-- `contains` distributes over list append. -/
theorem contains_append (l₁ l₂ : List String) (a : String) :
    (l₁ ++ l₂).contains a = (l₁.contains a || l₂.contains a) := by
  induction l₁ with
  | nil => simp
  | cons b t ih => simp [List.contains_cons, ih, Bool.or_assoc]

/-- C10: frame effect on the caller's list.  With a non-empty
`columns_whitelist` lacking `"Valor Mensal Final"` or
`"Mês de emissão da NF"`, and a non-empty filtered row set, the missing
critical names are appended to the caller's very list object (its final
content differs from the content passed in), and the summary's
`requested_columns` aliases that same mutated list. -/
theorem claim_C10 (df : Table) (u ym : String) (ws : List String)
    (h1 : ws ≠ [])
    (h2 : ws.contains "Valor Mensal Final" = false ∨
      ws.contains "Mês de emissão da NF" = false)
    (h3 : (filter_and_prepare df u ym (some ws)).rows ≠ []) :
    (filter_and_prepare df u ym (some ws)).whitelistAfter =
      some (ws ++
        ((if ws.contains "Valor Mensal Final" then []
          else ["Valor Mensal Final"]) ++
         (if ws.contains "Mês de emissão da NF" then []
          else ["Mês de emissão da NF"]))) ∧
    ws ++
      ((if ws.contains "Valor Mensal Final" then []
        else ["Valor Mensal Final"]) ++
       (if ws.contains "Mês de emissão da NF" then []
        else ["Mês de emissão da NF"])) ≠ ws ∧
    (filter_and_prepare df u ym (some ws)).summary.requested_columns =
      (filter_and_prepare df u ym (some ws)).whitelistAfter := by
  have hwE : ws.isEmpty = false := by
    cases ws with
    | nil => exact absurd rfl h1
    | cons a t => rfl
  have hne : ws ++
      ((if ws.contains "Valor Mensal Final" then []
        else ["Valor Mensal Final"]) ++
       (if ws.contains "Mês de emissão da NF" then []
        else ["Mês de emissão da NF"])) ≠ ws := by
    intro hcontra
    have hlen := congrArg List.length hcontra
    simp [List.length_append] at hlen
    rcases h2 with h2 | h2
    · have : ws.contains "Valor Mensal Final" = true := by simpa using hlen.1
      rw [this] at h2
      cases h2
    · have : ws.contains "Mês de emissão da NF" = true := by simpa using hlen.2
      rw [this] at h2
      cases h2
  rcases fp_cases df u ym (some ws) with h | ⟨dfu, mc, vc, ec, h⟩
  · rw [h] at h3
    exact absurd rfl h3
  · refine ⟨?_, hne, ?_⟩ <;>
      rw [h] <;>
      simp only [fp_finish, fp_display_columns, hwE, Bool.false_eq_true, if_false] <;>
      cases hV : ws.contains "Valor Mensal Final" <;>
      cases hM : ws.contains "Mês de emissão da NF" <;>
      simp [contains_append, hV, hM, List.append_assoc] <;>
      simp_all

/-- C10 witness: a concrete run whose caller-passed list `["Unidade"]`
ends up as `["Unidade", "Valor Mensal Final", "Mês de emissão da NF"]`. -/
theorem claim_C10_witness :
    (filter_and_prepare
        ⟨["Unidade", "Mês de emissão da NF"],
         [[("Unidade", .str "Shopping ABC"),
           ("Mês de emissão da NF", .str "2025-11")]]⟩
        "Shopping ABC" "2025-11" (some ["Unidade"])).whitelistAfter =
      some (["Unidade"] ++
        ((if (["Unidade"] : List String).contains "Valor Mensal Final" then []
          else ["Valor Mensal Final"]) ++
         (if (["Unidade"] : List String).contains "Mês de emissão da NF" then []
          else ["Mês de emissão da NF"]))) ∧
    ["Unidade"] ++
      ((if (["Unidade"] : List String).contains "Valor Mensal Final" then []
        else ["Valor Mensal Final"]) ++
       (if (["Unidade"] : List String).contains "Mês de emissão da NF" then []
        else ["Mês de emissão da NF"])) ≠ ["Unidade"] ∧
    (filter_and_prepare
        ⟨["Unidade", "Mês de emissão da NF"],
         [[("Unidade", .str "Shopping ABC"),
           ("Mês de emissão da NF", .str "2025-11")]]⟩
        "Shopping ABC" "2025-11" (some ["Unidade"])).summary.requested_columns =
      (filter_and_prepare
        ⟨["Unidade", "Mês de emissão da NF"],
         [[("Unidade", .str "Shopping ABC"),
           ("Mês de emissão da NF", .str "2025-11")]]⟩
        "Shopping ABC" "2025-11" (some ["Unidade"])).whitelistAfter :=
  claim_C10
    ⟨["Unidade", "Mês de emissão da NF"],
     [[("Unidade", .str "Shopping ABC"),
       ("Mês de emissão da NF", .str "2025-11")]]⟩
    "Shopping ABC" "2025-11" ["Unidade"] (by decide) (Or.inl (by decide))
    (by decide)

end Portal

namespace Portal

/-- C6 counterexample: on a table whose two distinct headers share one
normalized form, the `norm_map` dict keeps the last header, so substring
resolution of the canonical Unit field returns the *second* header even
though the first header in table order also contains the candidate. -/
theorem claim_C6_counterexample :
    pick_column ["Total UNIDADE X", "total unidade x"] candUnidade =
      some "total unidade x" ∧
    pick_column_spec ["Total UNIDADE X", "total unidade x"] candUnidade =
      some "Total UNIDADE X" ∧
    infixList (normalize_text_full "Unidade").data
      (normalize_text_full "Total UNIDADE X").data = true ∧
    ("total unidade x" : String) ≠ "Total UNIDADE X" := by
  decide

/-- Folding `dictInsert` over headers with pairwise-distinct normalized
forms never overwrites, so the dict is the plain association list. -/
theorem normMap_go (headers : List String) :
    ∀ acc : List (String × String),
      (∀ p ∈ acc, ∀ h ∈ headers, p.1 ≠ normalize_text_full h) →
      headers.Pairwise
        (fun a b => normalize_text_full a ≠ normalize_text_full b) →
      headers.foldl (fun m c => dictInsert m (normalize_text_full c) c) acc =
        acc ++ headers.map fun h => (normalize_text_full h, h) := by
  induction headers with
  | nil => intro acc _ _; simp
  | cons h t ih =>
    intro acc hacc hinj
    have hnot : acc.any (fun p => p.1 == normalize_text_full h) = false := by
      rw [List.any_eq_false]
      intro p hp hbeq
      exact hacc p hp h (List.mem_cons_self h t) (by exact beq_iff_eq.mp hbeq)
    have hstep : dictInsert acc (normalize_text_full h) h =
        acc ++ [(normalize_text_full h, h)] := by
      unfold dictInsert
      rw [hnot]
      rfl
    simp only [List.foldl_cons, hstep]
    rw [ih (acc ++ [(normalize_text_full h, h)]) ?_ (List.Pairwise.of_cons hinj)]
    · simp
    · intro p hp h' hh'
      rcases List.mem_append.mp hp with hp | hp
      · exact hacc p hp h' (List.mem_cons_of_mem _ hh')
      · rcases List.mem_singleton.mp hp with rfl
        exact (List.pairwise_cons.mp hinj).1 h' hh'

/-- With pairwise-distinct normalized headers, `norm_map` is the plain
association list in table order. -/
theorem normMap_inj (headers : List String)
    (hinj : headers.Pairwise
      (fun a b => normalize_text_full a ≠ normalize_text_full b)) :
    normMap headers = headers.map fun h => (normalize_text_full h, h) := by
  have := normMap_go headers [] (by intro p hp; cases hp) hinj
  simpa [normMap] using this

/-- Looking a normalized candidate up in the plain association list is the
exact-match search over headers in table order. -/
theorem find_map_exact (headers : List String) (nc : String) :
    (((headers.map fun h => (normalize_text_full h, h)).find?
        fun p => p.1 == nc).map fun p => p.2) =
      headers.find? fun h => normalize_text_full h == nc := by
  induction headers with
  | nil => rfl
  | cons h t ih =>
    simp only [List.map_cons, List.find?_cons]
    by_cases hh : (normalize_text_full h == nc) = true
    · simp [hh]
    · rw [Bool.not_eq_true] at hh
      simp only [hh]
      exact ih

/-- Scanning the plain association list for a key containing the
candidate is the substring search over headers in table order. -/
theorem find_map_sub (headers : List String) (nc : String) :
    (((headers.map fun h => (normalize_text_full h, h)).find?
        fun p => infixList nc.data p.1.data).map fun p => p.2) =
      headers.find? fun h => infixList nc.data (normalize_text_full h).data := by
  induction headers with
  | nil => rfl
  | cons h t ih =>
    simp only [List.map_cons, List.find?_cons]
    by_cases hh : infixList nc.data (normalize_text_full h).data = true
    · simp [hh]
    · rw [Bool.not_eq_true] at hh
      simp only [hh]
      exact ih

/-- C6 (amended): exact matching is tried over every candidate before any
substring matching, and — provided no two headers share a normalized form
— the substring pass returns the first header in table order whose
normalized form contains the (non-empty) normalized candidate, candidates
in priority order: `_pick_column` coincides with the spec's procedure. -/
theorem claim_C6 (headers candidates : List String)
    (hinj : headers.Pairwise
      (fun a b => normalize_text_full a ≠ normalize_text_full b)) :
    pick_column headers candidates = pick_column_spec headers candidates := by
  simp only [pick_column, pick_column_spec]
  rw [normMap_inj headers hinj]
  simp only [find_map_exact, find_map_sub]

/-- C6 witness: a table with distinct normalized headers, resolved by the
substring rule. -/
theorem claim_C6_witness :
    pick_column ["Nome", "Grande Unidade Sul"] candUnidade =
      pick_column_spec ["Nome", "Grande Unidade Sul"] candUnidade :=
  claim_C6 ["Nome", "Grande Unidade Sul"] candUnidade (by decide)

end Portal

namespace Portal

/-! ## Row and column-assignment lemmas -/

/-- Replacing the matching entries leaves `(k, v)` as the first hit. -/
theorem find?_map_if_self (k : String) (v : CellVal) :
    ∀ r : Row, r.any (fun p => p.1 == k) = true →
      (r.map fun p => if p.1 == k then (k, v) else p).find?
        (fun p => p.1 == k) = some (k, v) := by
  intro r
  induction r with
  | nil => intro h; simp at h
  | cons p rest ih =>
    intro h
    by_cases hp : (p.1 == k) = true
    · have hpk : p.1 = k := beq_iff_eq.mp hp
      simp [List.find?_cons, hpk]
    · rw [Bool.not_eq_true] at hp
      simp only [List.any_cons, hp, Bool.false_or] at h
      simp only [List.map_cons, hp, Bool.false_eq_true, if_false, List.find?_cons, hp]
      exact ih h

/-- Replacing the `k`-entries does not change lookups at other keys. -/
theorem find?_map_if_ne (k k' : String) (v : CellVal) (hne : k ≠ k') :
    ∀ r : Row,
      (r.map fun p => if p.1 == k then (k, v) else p).find?
        (fun p => p.1 == k') = r.find? (fun p => p.1 == k') := by
  intro r
  induction r with
  | nil => rfl
  | cons p rest ih =>
    by_cases hp : (p.1 == k) = true
    · have hpk : p.1 = k := beq_iff_eq.mp hp
      have h1 : (k == k') = false := beq_eq_false_iff_ne.mpr hne
      have h2 : (p.1 == k') = false := by
        rw [hpk]
        exact h1
      simp only [List.map_cons, hp, if_true, List.find?_cons, h1, h2]
      exact ih
    · rw [Bool.not_eq_true] at hp
      simp only [List.map_cons, hp, Bool.false_eq_true, if_false, List.find?_cons]
      cases hq : (p.1 == k') with
      | true => rfl
      | false => exact ih

/-- Assigning column `k` makes the row read `v` at `k`. -/
theorem rowGet?_rowSet_self (r : Row) (k : String) (v : CellVal) :
    rowGet? (rowSet r k v) k = some v := by
  unfold rowSet rowGet?
  by_cases h : r.any (fun p => p.1 == k) = true
  · rw [if_pos h, find?_map_if_self k v r h]
    rfl
  · rw [if_neg h, List.find?_append]
    have hnone : r.find? (fun p => p.1 == k) = none := by
      rw [List.find?_eq_none]
      intro p hp
      rw [Bool.not_eq_true] at h
      exact (List.any_eq_false.mp h) p hp
    rw [hnone]
    simp [List.find?_cons]

/-- Assigning column `k` does not change the row at other keys. -/
theorem rowGet?_rowSet_ne (r : Row) (k : String) (v : CellVal) (k' : String)
    (hne : k ≠ k') :
    rowGet? (rowSet r k v) k' = rowGet? r k' := by
  unfold rowSet rowGet?
  by_cases h : r.any (fun p => p.1 == k) = true
  · rw [if_pos h, find?_map_if_ne k k' v hne r]
  · rw [if_neg h, List.find?_append]
    have hsingle : ([(k, v)] : Row).find? (fun p => p.1 == k') = none := by
      simp [List.find?_cons, beq_eq_false_iff_ne.mpr hne]
    rw [hsingle, Option.or_none]

/-- Projection reads through to the projected row's value (with pandas'
guarantee that the key exists rendered as a default). -/
theorem rowGet?_projectRow (cols : List String) (r : Row) (k : String) :
    rowGet? (projectRow cols r) k =
      if k ∈ cols then some ((rowGet? r k).getD (.str "")) else none := by
  induction cols with
  | nil => simp [projectRow, rowGet?]
  | cons c cols ih =>
    by_cases hck : k = c
    · subst hck
      show rowGet? ((k, (rowGet? r k).getD (.str "")) :: projectRow cols r) k = _
      simp [rowGet?, List.find?_cons]
    · show rowGet? ((c, (rowGet? r c).getD (.str "")) :: projectRow cols r) k = _
      have hc : (c == k) = false := beq_eq_false_iff_ne.mpr fun h => hck h.symm
      rw [show rowGet? ((c, (rowGet? r c).getD (.str "")) :: projectRow cols r) k =
          rowGet? (projectRow cols r) k from by simp [rowGet?, List.find?_cons, hc]]
      rw [ih]
      simp [List.mem_cons, hck]

/-- The rows of a column assignment. -/
theorem setCol_rows (t : Table) (k : String) (f : Row → CellVal) :
    (setCol t k f).rows = t.rows.map fun r => rowSet r k (f r) := rfl

/-- The headers of a column assignment. -/
theorem mem_setCol_headers (t : Table) (k : String) (f : Row → CellVal)
    (k' : String) :
    k' ∈ (setCol t k f).headers ↔ k' ∈ t.headers ∨ k' = k := by
  simp only [setCol]
  by_cases h : t.headers.contains k = true
  · rw [if_pos h]
    constructor
    · exact Or.inl
    · rintro (hk | rfl)
      · exact hk
      · exact List.elem_iff.mp h
  · rw [if_neg h]
    simp [List.mem_append]

end Portal

namespace Portal

/-! ## Stage lemmas for the derived columns -/

/-- Every row after the step-4 assignments reads the forced constant in
the reference-month column. -/
theorem fp_t4_rows_ref (headers : List String) (dfu : List Row)
    (mesCol : String) (vmfCol : Option String) (ym : String) :
    ∀ r4 ∈ (fp_t4 headers dfu mesCol vmfCol ym).rows,
      rowGet? r4 "Mês referência para faturamento" =
        some (.str (format_mmyy (get_prev_month ym))) := by
  intro r4 hr4
  cases vmfCol with
  | some vc =>
    simp only [fp_t4, setCol_rows, List.mem_map] at hr4
    obtain ⟨r3, ⟨r2, ⟨r1, ⟨r0, _, rfl⟩, rfl⟩, rfl⟩, rfl⟩ := hr4
    rw [rowGet?_rowSet_ne _ _ _ _ (by decide),
      rowGet?_rowSet_ne _ _ _ _ (by decide),
      rowGet?_rowSet_self]
  | none =>
    simp only [fp_t4, setCol_rows, List.mem_map] at hr4
    obtain ⟨r3, ⟨r2, ⟨r1, ⟨r0, _, rfl⟩, rfl⟩, rfl⟩, rfl⟩ := hr4
    rw [rowGet?_rowSet_ne _ _ _ _ (by decide),
      rowGet?_rowSet_ne _ _ _ _ (by decide),
      rowGet?_rowSet_self]

/-- Every row after the step-4 assignments holds a `fmt_brl`-formatted
string in `Valor Mensal Final`. -/
theorem fp_t4_rows_vmf (headers : List String) (dfu : List Row)
    (mesCol : String) (vmfCol : Option String) (ym : String) :
    ∀ r4 ∈ (fp_t4 headers dfu mesCol vmfCol ym).rows,
      ∃ q, rowGet? r4 "Valor Mensal Final" = some (.str (fmt_brl q)) := by
  intro r4 hr4
  cases vmfCol with
  | some vc =>
    simp only [fp_t4, setCol_rows, List.mem_map] at hr4
    obtain ⟨r3, ⟨r2, ⟨r1, ⟨r0, _, rfl⟩, rfl⟩, rfl⟩, rfl⟩ := hr4
    exact ⟨_, rowGet?_rowSet_self _ _ _⟩
  | none =>
    simp only [fp_t4, setCol_rows, List.mem_map] at hr4
    obtain ⟨r3, ⟨r2, ⟨r1, ⟨r0, _, rfl⟩, rfl⟩, rfl⟩, rfl⟩ := hr4
    exact ⟨_, rowGet?_rowSet_self _ _ _⟩

/-- The step-4 assignments add exactly the four derived column names. -/
theorem mem_fp_t4_headers (headers : List String) (dfu : List Row)
    (mesCol : String) (vmfCol : Option String) (ym : String) (k : String) :
    k ∈ (fp_t4 headers dfu mesCol vmfCol ym).headers ↔
      k ∈ headers ∨ k = "Mês de emissão da NF" ∨
      k = "Mês referência para faturamento" ∨ k = "_vmf_num" ∨
      k = "Valor Mensal Final" := by
  cases vmfCol <;>
    simp [fp_t4, mem_setCol_headers, or_assoc]

/-- Reference-month constant, carried through the optional `Horas
Atrasos` reformat. -/
theorem fp_t5_rows_ref (headers : List String) (dfu : List Row)
    (mesCol : String) (vmfCol : Option String) (ym : String) :
    ∀ r5 ∈ (fp_t5 headers dfu mesCol vmfCol ym).rows,
      rowGet? r5 "Mês referência para faturamento" =
        some (.str (format_mmyy (get_prev_month ym))) := by
  intro r5 hr5
  simp only [fp_t5] at hr5
  by_cases hH : (fp_t4 headers dfu mesCol vmfCol ym).headers.contains
      "Horas Atrasos" = true
  · rw [if_pos hH] at hr5
    simp only [setCol_rows, List.mem_map] at hr5
    obtain ⟨r4, hr4, rfl⟩ := hr5
    rw [rowGet?_rowSet_ne _ _ _ _ (by decide)]
    exact fp_t4_rows_ref headers dfu mesCol vmfCol ym r4 hr4
  · rw [if_neg hH] at hr5
    exact fp_t4_rows_ref headers dfu mesCol vmfCol ym r5 hr5

/-- `Valor Mensal Final` stays `fmt_brl`-formatted through the optional
`Horas Atrasos` reformat. -/
theorem fp_t5_rows_vmf (headers : List String) (dfu : List Row)
    (mesCol : String) (vmfCol : Option String) (ym : String) :
    ∀ r5 ∈ (fp_t5 headers dfu mesCol vmfCol ym).rows,
      ∃ q, rowGet? r5 "Valor Mensal Final" = some (.str (fmt_brl q)) := by
  intro r5 hr5
  simp only [fp_t5] at hr5
  by_cases hH : (fp_t4 headers dfu mesCol vmfCol ym).headers.contains
      "Horas Atrasos" = true
  · rw [if_pos hH] at hr5
    simp only [setCol_rows, List.mem_map] at hr5
    obtain ⟨r4, hr4, rfl⟩ := hr5
    obtain ⟨q, hq⟩ := fp_t4_rows_vmf headers dfu mesCol vmfCol ym r4 hr4
    refine ⟨q, ?_⟩
    rw [rowGet?_rowSet_ne _ _ _ _ (by decide)]
    exact hq
  · rw [if_neg hH] at hr5
    exact fp_t4_rows_vmf headers dfu mesCol vmfCol ym r5 hr5

/-- When the table has a `Horas Atrasos` column, every returned row's
value there is a duration-normalized string. -/
theorem fp_t5_rows_horas (headers : List String) (dfu : List Row)
    (mesCol : String) (vmfCol : Option String) (ym : String)
    (hH : "Horas Atrasos" ∈ headers) :
    ∀ r5 ∈ (fp_t5 headers dfu mesCol vmfCol ym).rows,
      ∃ s, rowGet? r5 "Horas Atrasos" = some (.str (format_horas_atrasos s)) := by
  intro r5 hr5
  have hcond : (fp_t4 headers dfu mesCol vmfCol ym).headers.contains
      "Horas Atrasos" = true :=
    List.elem_iff.mpr
      ((mem_fp_t4_headers headers dfu mesCol vmfCol ym "Horas Atrasos").mpr
        (Or.inl hH))
  simp only [fp_t5] at hr5
  rw [if_pos hcond] at hr5
  simp only [setCol_rows, List.mem_map] at hr5
  obtain ⟨r4, hr4, rfl⟩ := hr5
  exact ⟨_, rowGet?_rowSet_self _ _ _⟩

/-- Lift a per-key fact about the step-4/5 rows through projection and
fallback to the returned rows. -/
theorem fp_finish_rows_val (key : String) (P : CellVal → Prop)
    (t5 : Table) (total : DecVal) (recipients : List String)
    (wl : Option (List String))
    (hall : ∀ r5 ∈ t5.rows, ∃ v, rowGet? r5 key = some v ∧ P v) :
    ∀ r ∈ (fp_finish t5 total recipients wl).rows, ∀ v,
      rowGet? r key = some v → P v := by
  intro r hr v hv
  simp only [fp_finish] at hr
  by_cases hc : (fp_display_columns wl).all
      (fun c => t5.headers.contains c) = true
  · rw [if_pos hc] at hr
    simp only [List.mem_map] at hr
    obtain ⟨r5, hr5, rfl⟩ := hr
    rw [rowGet?_projectRow] at hv
    split at hv
    · obtain ⟨w, hw, hP⟩ := hall r5 hr5
      rw [hw] at hv
      injection hv with hv
      rw [← hv]
      exact hP
    · cases hv
  · rw [if_neg hc] at hr
    obtain ⟨w, hw, hP⟩ := hall r hr
    rw [hw] at hv
    injection hv with hv
    rw [← hv]
    exact hP

end Portal

namespace Portal

/-- C3 counterexample: the returned row exposes the raw dot-decimal
currency cell `"1234.56"` in the display column `"Valor Planilha"`,
unformatted (its BRL-formatted form would be `"1.234,56"`), and that
column is part of the display set actually used. -/
theorem claim_C3_counterexample :
    ((filter_and_prepare C3table "Shopping ABC" "2025-11" none).rows.map
      fun r => rowGet? r "Valor Planilha") = [some (.str "1234.56")] ∧
    fmt_brl (to_decimal_sane "1234.56") = "1.234,56" ∧
    ("1234.56" : String) ≠ "1.234,56" ∧
    (filter_and_prepare C3table "Shopping ABC" "2025-11"
        none).summary.display_columns = some DEFAULT_DISPLAY_COLUMNS ∧
    DEFAULT_DISPLAY_COLUMNS.contains "Valor Planilha" = true := by
  decide

/-- C3 (amended): only the derived columns are formatted — every returned
row's `Valor Mensal Final` value is a `fmt_brl`-formatted string, and,
when the table has a `Horas Atrasos` column, its `Horas Atrasos` value is
a duration-normalized string; other display columns pass raw cell values
through. -/
theorem claim_C3 (df : Table) (u ym : String) (wl : Option (List String))
    (r : Row) (hr : r ∈ (filter_and_prepare df u ym wl).rows) :
    (∀ v, rowGet? r "Valor Mensal Final" = some v →
      ∃ q, v = .str (fmt_brl q)) ∧
    ("Horas Atrasos" ∈ df.headers →
      ∀ v, rowGet? r "Horas Atrasos" = some v →
        ∃ s, v = .str (format_horas_atrasos s)) := by
  rcases fp_cases df u ym wl with h | ⟨dfu, mc, vc, ec, h⟩
  · rw [h] at hr
    cases hr
  · rw [h] at hr
    constructor
    · intro v hv
      refine fp_finish_rows_val "Valor Mensal Final"
        (fun v => ∃ q, v = .str (fmt_brl q)) _ _ _ _ ?_ r hr v hv
      intro r5 hr5
      obtain ⟨q, hq⟩ := fp_t5_rows_vmf df.headers dfu mc vc ym r5 hr5
      exact ⟨_, hq, ⟨q, rfl⟩⟩
    · intro hH v hv
      refine fp_finish_rows_val "Horas Atrasos"
        (fun v => ∃ s, v = .str (format_horas_atrasos s)) _ _ _ _ ?_ r hr v hv
      intro r5 hr5
      obtain ⟨s, hs⟩ := fp_t5_rows_horas df.headers dfu mc vc ym hH r5 hr5
      exact ⟨_, hs, ⟨s, rfl⟩⟩

/-- C3 witness: the `Valor Mensal Final` cell of the concrete returned
row is in the range of `fmt_brl`. -/
theorem claim_C3_witness :
    ∃ q, CellVal.str "0,00" = CellVal.str (fmt_brl q) :=
  (claim_C3 C3table "Shopping ABC" "2025-11" none
      ((filter_and_prepare C3table "Shopping ABC" "2025-11" none).rows.headD [])
      (by decide)).1 (.str "0,00") (by decide)

end Portal

namespace Portal

/-! ## Digit-string and split lemmas for the month formatting -/

/-- `natCharsAux` ignores the fuel once it exceeds the argument. -/
theorem natCharsAux_congr : ∀ f1 f2 n : ℕ, n < f1 → n < f2 →
    natCharsAux f1 n = natCharsAux f2 n := by
  intro f1
  induction f1 with
  | zero => intro f2 n h _; exact absurd h (Nat.not_lt_zero n)
  | succ f ih =>
    intro f2 n h1 h2
    cases f2 with
    | zero => exact absurd h2 (Nat.not_lt_zero n)
    | succ f2' =>
      simp only [natCharsAux]
      by_cases hn : n < 10
      · simp [hn]
      · simp only [hn, if_false]
        congr 1
        exact ih f2' (n / 10) (by omega) (by omega)

/-- One-digit unfolding. -/
theorem natChars_lt10 {n : ℕ} (h : n < 10) : natChars n = [digitChar n] := by
  simp [natChars, natCharsAux, h]

/-- Multi-digit unfolding. -/
theorem natChars_ge10 {n : ℕ} (h : 10 ≤ n) :
    natChars n = natChars (n / 10) ++ [digitChar (n % 10)] := by
  have h1 : ¬ n < 10 := by omega
  show natCharsAux (n + 1) n = _
  rw [show natCharsAux (n + 1) n =
      if n < 10 then [digitChar n]
      else natCharsAux n (n / 10) ++ [digitChar (n % 10)] from rfl]
  rw [if_neg h1]
  show _ = natCharsAux (n / 10 + 1) (n / 10) ++ [digitChar (n % 10)]
  congr 1
  exact natCharsAux_congr n (n / 10 + 1) (n / 10) (by omega) (by omega)

/-- Every character of `natChars` is a digit character. -/
theorem mem_natChars_digit : ∀ n : ℕ, ∀ c ∈ natChars n,
    ∃ d, d < 10 ∧ c = digitChar d := by
  intro n
  induction n using Nat.strong_induction_on with
  | _ n ih =>
    intro c hc
    by_cases hn : n < 10
    · rw [natChars_lt10 hn] at hc
      rcases List.mem_singleton.mp hc with rfl
      exact ⟨n, hn, rfl⟩
    · rw [natChars_ge10 (by omega)] at hc
      rcases List.mem_append.mp hc with hc | hc
      · exact ih (n / 10) (by omega) c hc
      · rcases List.mem_singleton.mp hc with rfl
        exact ⟨n % 10, by omega, rfl⟩

/-- Digit characters are not the dash separator. -/
theorem digitChar_ne_dash {d : ℕ} (h : d < 10) : digitChar d ≠ '-' := by
  interval_cases d <;> decide

/-- A zero-padded digit string contains no dash. -/
theorem dash_not_mem_padZeros (k n : ℕ) : '-' ∉ padZeros k (natChars n) := by
  intro hmem
  rcases List.mem_append.mp hmem with hr | hn
  · exact absurd (List.eq_of_mem_replicate hr) (by decide)
  · obtain ⟨d, hd, hc⟩ := mem_natChars_digit n '-' hn
    exact digitChar_ne_dash hd hc.symm

/-- A separator-free list splits into itself. -/
theorem splitChar_of_not_mem (sep : Char) :
    ∀ l : List Char, sep ∉ l → splitChar sep l = [l] := by
  intro l
  induction l with
  | nil => intro _; rfl
  | cons c rest ih =>
    intro h
    have hc : (c == sep) = false :=
      beq_eq_false_iff_ne.mpr fun hcc => h (hcc ▸ List.mem_cons_self c rest)
    simp only [splitChar, hc, Bool.false_eq_true, if_false]
    rw [ih fun hm => h (List.mem_cons_of_mem c hm)]

/-- Splitting around the first separator. -/
theorem splitChar_append_sep (sep : Char) :
    ∀ a b : List Char, sep ∉ a →
      splitChar sep (a ++ sep :: b) = a :: splitChar sep b := by
  intro a
  induction a with
  | nil =>
    intro b _
    simp [splitChar]
  | cons c rest ih =>
    intro b h
    have hc : (c == sep) = false :=
      beq_eq_false_iff_ne.mpr fun hcc => h (hcc ▸ List.mem_cons_self c rest)
    simp only [List.cons_append, splitChar, hc, Bool.false_eq_true, if_false,
      List.append_eq]
    rw [ih b fun hm => h (List.mem_cons_of_mem c hm)]

/-- Two-digit decomposition of the zero-padded rendering. -/
theorem padZeros2_eq (n : ℕ) (h : n < 100) :
    padZeros 2 (natChars n) =
      [digitChar (n / 10 % 10), digitChar (n % 10)] := by
  by_cases h1 : n < 10
  · rw [natChars_lt10 h1]
    have e3 : n / 10 % 10 = 0 := by omega
    have e4 : n % 10 = n := by omega
    rw [e3, e4]
    rfl
  · rw [natChars_ge10 (by omega), natChars_lt10 (show n / 10 < 10 by omega)]
    have e3 : n / 10 % 10 = n / 10 := by omega
    rw [e3]
    rfl

/-- Four-digit decomposition of the zero-padded rendering. -/
theorem padZeros4_eq (n : ℕ) (h : n < 10000) :
    padZeros 4 (natChars n) =
      [digitChar (n / 1000 % 10), digitChar (n / 100 % 10),
       digitChar (n / 10 % 10), digitChar (n % 10)] := by
  by_cases h1 : n < 10
  · rw [natChars_lt10 h1]
    have e1 : n / 1000 % 10 = 0 := by omega
    have e2 : n / 100 % 10 = 0 := by omega
    have e3 : n / 10 % 10 = 0 := by omega
    have e4 : n % 10 = n := by omega
    rw [e1, e2, e3, e4]
    rfl
  · by_cases h2 : n < 100
    · rw [natChars_ge10 (by omega), natChars_lt10 (show n / 10 < 10 by omega)]
      have e1 : n / 1000 % 10 = 0 := by omega
      have e2 : n / 100 % 10 = 0 := by omega
      have e3 : n / 10 % 10 = n / 10 := by omega
      rw [e1, e2, e3]
      rfl
    · by_cases h3 : n < 1000
      · rw [natChars_ge10 (by omega), natChars_ge10 (show 10 ≤ n / 10 by omega),
          natChars_lt10 (show n / 10 / 10 < 10 by omega)]
        have e1 : n / 1000 % 10 = 0 := by omega
        have e2 : n / 10 / 10 = n / 100 := by omega
        have e3 : n / 100 % 10 = n / 100 := by omega
        rw [e1, e2, e3]
        rfl
      · rw [natChars_ge10 (by omega), natChars_ge10 (show 10 ≤ n / 10 by omega),
          natChars_ge10 (show 10 ≤ n / 10 / 10 by omega),
          natChars_lt10 (show n / 10 / 10 / 10 < 10 by omega)]
        have e1 : n / 10 / 10 / 10 = n / 1000 := by omega
        have e2 : n / 1000 % 10 = n / 1000 := by omega
        have e3 : n / 10 / 10 = n / 100 := by omega
        rw [e1, e2, e3]
        rfl

end Portal

namespace Portal

/-- For a target month splitting into a valid year and month, the forced
reference-month display computed by the code equals the spec's
previous-calendar-month `MM/YY` rendering. -/
theorem get_prev_month_format (ym : String) (ys ms : List Char) (y m : ℕ)
    (hsplit : splitChar '-' ym.data = [ys, ms])
    (hy : pyIntChars ys = some (y : ℤ))
    (hm : pyIntChars ms = some (m : ℤ))
    (hy1 : 1 ≤ y) (hy2 : y ≤ 9999) (hm1 : 1 ≤ m) (hm2 : m ≤ 12)
    (hne : ¬(y = 1 ∧ m = 1)) :
    format_mmyy (get_prev_month ym) = mmyyOfPrev y m := by
  have hnem : ¬ ym = "" := by
    intro hcontra
    rw [show ym.data = ([] : List Char) from congrArg String.data hcontra] at hsplit
    simp [splitChar] at hsplit
  have hprev : get_prev_month ym =
      String.mk (padZeros 4 (natChars (if m = 1 then y - 1 else y)) ++
        '-' :: padZeros 2 (natChars (if m = 1 then 12 else m - 1))) := by
    simp only [get_prev_month]
    rw [if_neg hnem, hsplit]
    simp only [hy, hm]
    rw [if_pos (by omega :
      1 ≤ (y : ℤ) ∧ (y : ℤ) ≤ 9999 ∧ 1 ≤ (m : ℤ) ∧ (m : ℤ) ≤ 12 ∧
        ¬((y : ℤ) = 1 ∧ (m : ℤ) = 1))]
    simp [Int.toNat_natCast]
  rw [hprev]
  set py := if m = 1 then y - 1 else y with hpy
  set pm := if m = 1 then 12 else m - 1 with hpm
  have hpy4 : py < 10000 := by
    rw [hpy]
    split <;> omega
  have hpm2 : pm < 100 := by
    rw [hpm]
    split <;> omega
  have hdata : (String.mk (padZeros 4 (natChars py) ++
      '-' :: padZeros 2 (natChars pm))).data =
      padZeros 4 (natChars py) ++ '-' :: padZeros 2 (natChars pm) := rfl
  have hne2 : ¬ String.mk (padZeros 4 (natChars py) ++
      '-' :: padZeros 2 (natChars pm)) = "" := by
    intro hcontra
    have := congrArg String.data hcontra
    rw [hdata] at this
    simp at this
  simp only [format_mmyy]
  rw [if_neg hne2,
    splitChar_append_sep '-' _ _ (dash_not_mem_padZeros 4 py),
    splitChar_of_not_mem '-' _ (dash_not_mem_padZeros 2 pm)]
  rw [padZeros4_eq py hpy4, padZeros2_eq pm hpm2]
  rfl

/-- C4: for every extraction with a valid `YYYY-MM` target month, the
`"Mês referência para faturamento"` value of every returned row equals
the calendar month immediately preceding the target month, formatted
`MM/YY`, regardless of any reference-month content in the source rows
(the theorem quantifies over every table). -/
theorem claim_C4 (df : Table) (u : String) (wl : Option (List String))
    (ym : String) (ys ms : List Char) (y m : ℕ)
    (hsplit : splitChar '-' ym.data = [ys, ms])
    (hy : pyIntChars ys = some (y : ℤ))
    (hm : pyIntChars ms = some (m : ℤ))
    (hy1 : 1 ≤ y) (hy2 : y ≤ 9999) (hm1 : 1 ≤ m) (hm2 : m ≤ 12)
    (hne : ¬(y = 1 ∧ m = 1)) :
    ∀ r ∈ (filter_and_prepare df u ym wl).rows, ∀ v,
      rowGet? r "Mês referência para faturamento" = some v →
      v = .str (mmyyOfPrev y m) := by
  have href : format_mmyy (get_prev_month ym) = mmyyOfPrev y m :=
    get_prev_month_format ym ys ms y m hsplit hy hm hy1 hy2 hm1 hm2 hne
  intro r hr v hv
  rcases fp_cases df u ym wl with h | ⟨dfu, mc, vc, ec, h⟩
  · rw [h] at hr
    cases hr
  · rw [h] at hr
    refine fp_finish_rows_val "Mês referência para faturamento"
      (fun v => v = .str (mmyyOfPrev y m)) _ _ _ _ ?_ r hr v hv
    intro r5 hr5
    refine ⟨_, fp_t5_rows_ref df.headers dfu mc vc ym r5 hr5, ?_⟩
    rw [href]

/-- C4 witness: the concrete returned row of a table whose source
reference-month cell says `"07/23"` still displays `"10/25"` for target
month `"2025-11"`. -/
theorem claim_C4_witness :
    CellVal.str "10/25" = CellVal.str (mmyyOfPrev 2025 11) :=
  claim_C4 C4table "Shopping ABC" none "2025-11"
    ['2', '0', '2', '5'] ['1', '1'] 2025 11
    (by decide) (by decide) (by decide) (by decide) (by decide) (by decide)
    (by decide) (by decide)
    ((filter_and_prepare C4table "Shopping ABC" "2025-11" none).rows.headD [])
    (by decide) (.str "10/25") (by decide)

end Portal
